import Mathlib

/-!
Shallow embedding of the koneksi-drive core (Go packages `internal/api` and
`internal/fs`): the remote-store client surface, the node tree
(`koneksiNode`) and the per-open file handle (`koneksiFileHandle`).

Modelling conventions:
* Byte contents are `List Nat`; offsets, sizes and timestamps are `Nat`
  (Go `int64` values that are non-negative on every path exercised here;
  no overflow is reachable at these magnitudes).
* Remote-store calls (`api.Client.List/Read/Write/Delete/Mkdir`) are
  request/response round trips; each embedded operation takes the outcome
  of the remote calls it makes as explicit Boolean failure flags and also
  returns the list of remote calls it issued, so that "no remote call is
  made" is a provable statement.
* The remote store itself is the external collaborator of spec section 6:
  a path-addressed object store in which a successful Delete removes the
  named object from its parent listing and a successful whole-object
  Write replaces the object content. The `World.listing` field holds what
  `RemoteStore.List(parent.path)` returns next.
-/

/-- POSIX-style error results used by the Go code via `syscall.Errno`.
`IOErr` stands for the generic I/O failure (syscall EIO). -/
inductive Errno where
  | EROFS
  | IOErr
  | ENOENT
  | ENOTDIR
  | EISDIR
deriving DecidableEq, Repr

/-- A remote-store call as issued by `api.Client`. -/
inductive RemoteCall where
  | list (path : String)
  | read (path : String)
  | write (path : String) (body : List Nat)
  | delete (path : String)
  | mkdir (path : String)
deriving DecidableEq, Repr

/-- `api.FileInfo`: one entry of a remote listing. -/
structure FileInfo where
  name : String
  size : Nat
  isDir : Bool
  modified : Nat
  path : String
deriving DecidableEq, Repr

/-- `config.MountConfig`: the mount-wide configuration consumed by the core. -/
structure MountCfg where
  readOnly : Bool
  allowOther : Bool
  uid : Nat
  gid : Nat
  umask : Nat
deriving DecidableEq, Repr

/-- `fuse.Attr`: the attribute record filled by `setAttr`. -/
structure Attr where
  size : Nat
  mtime : Nat
  ctime : Nat
  atime : Nat
  mode : Nat
  uid : Nat
  gid : Nat
deriving DecidableEq, Repr

/-- `fuse.DirEntry`: one entry returned by `Readdir`. -/
structure DirEntry where
  name : String
  mode : Nat
deriving DecidableEq, Repr

/-- `syscall.S_IFDIR`. -/
def S_IFDIR : Nat := 0o040000

/-- `syscall.S_IFREG`. -/
def S_IFREG : Nat := 0o100000

/-- `fs/koneksiNode`: path, cached `api.FileInfo`, and the cached children
map (`map[string]*koneksiNode`, modelled as an association list). -/
inductive koneksiNode where
  | mk (path : String) (info : FileInfo) (children : List (String × koneksiNode))

def koneksiNode.path : koneksiNode → String
  | .mk p _ _ => p

def koneksiNode.info : koneksiNode → FileInfo
  | .mk _ i _ => i

def koneksiNode.children : koneksiNode → List (String × koneksiNode)
  | .mk _ _ c => c

/-- Go map read `n.children[name]`: first binding for the key (keys are
unique because insertion replaces). -/
def mapLookup (m : List (String × koneksiNode)) (k : String) : Option koneksiNode :=
  match m with
  | [] => none
  | (k', v) :: rest => if k' = k then some v else mapLookup rest k

/-- Go map assignment `n.children[name] = child`: replace or append. -/
def mapInsert (m : List (String × koneksiNode)) (k : String) (v : koneksiNode) :
    List (String × koneksiNode) :=
  match m with
  | [] => [(k, v)]
  | (k', v') :: rest => if k' = k then (k, v) :: rest else (k', v') :: mapInsert rest k v

/-- Go map removal `delete(n.children, name)`. -/
def mapDelete (m : List (String × koneksiNode)) (k : String) :
    List (String × koneksiNode) :=
  match m with
  | [] => []
  | (k', v) :: rest => if k' = k then mapDelete rest k else (k', v) :: mapDelete rest k

/-- The scan `for _, file := range files { if file.Name == name { ... } }`
in `Lookup`: first listing entry with the given name. -/
def findEntry (l : List FileInfo) (name : String) : Option FileInfo :=
  match l with
  | [] => none
  | f :: rest => if f.name = name then some f else findEntry rest name

/-- Remote-store model: a successful `Delete(childPath)` removes every
entry of that name from the parent listing (no concurrent external
recreation). -/
def dropEntries (l : List FileInfo) (name : String) : List FileInfo :=
  match l with
  | [] => []
  | f :: rest => if f.name = name then dropEntries rest name else f :: dropEntries rest name

/-- `filepath.Join(n.path, name)` for a plain child name. -/
def joinPath (p name : String) : String :=
  if p = "/" then p ++ name else p ++ "/" ++ name

/-- State a node-tree operation acts on: the parent directory node and
what `RemoteStore.List(parent.path)` returns next. -/
structure World where
  parent : koneksiNode
  listing : List FileInfo

/-- Outcome of a node-tree operation: result, updated state, and the
remote calls issued (in order). -/
structure OpOut (α : Type) where
  res : Except Errno α
  w : World
  calls : List RemoteCall

/-- `koneksiNode.Lookup` (internal/fs, lines 329-366): consult the cached
children map; on a miss, issue `List(n.path)` (outcome given by
`listFails`) and scan for the name; a failed listing returns ENOENT. -/
def koneksiNode.Lookup (listFails : Bool) (w : World) (name : String) :
    OpOut koneksiNode :=
  match mapLookup w.parent.children name with
  | some child => ⟨.ok child, w, []⟩
  | none =>
    if listFails then ⟨.error .ENOENT, w, [.list w.parent.path]⟩
    else
      match findEntry w.listing name with
      | some file =>
        let childPath := joinPath w.parent.path name
        let child := koneksiNode.mk childPath file []
        ⟨.ok child,
         ⟨koneksiNode.mk w.parent.path w.parent.info
            (mapInsert w.parent.children name child), w.listing⟩,
         [.list w.parent.path]⟩
      | none => ⟨.error .ENOENT, w, [.list w.parent.path]⟩

/-- `koneksiNode.Readdir` (internal/fs, lines 371-409): reject non-dirs,
issue a fresh `List(n.path)`, emit one `DirEntry` per listing entry and
rebuild the children map from scratch.

Go 1.21 semantics (the module targets Go 1.21: the README requires
Go 1.21+ and CI pins GO_VERSION 1.21, both predating the Go 1.22
per-iteration loop-variable change): the child construction stores
`info: &file`, the address of the single per-loop variable, so after the
loop every child dereferences to the final value of `file` - the last
listed entry. The per-iteration values (`file.Name`, the joined path,
the DirEntry fields) are copied and stay correct. -/
def koneksiNode.Readdir (listFails : Bool) (w : World) : OpOut (List DirEntry) :=
  if !w.parent.info.isDir then ⟨.error .ENOTDIR, w, []⟩
  else if listFails then ⟨.error .IOErr, w, [.list w.parent.path]⟩
  else
    let files := w.listing
    let entries := files.map (fun f => ⟨f.name, if f.isDir then S_IFDIR else S_IFREG⟩)
    let children :=
      match files.getLast? with
      | none => []
      | some lastF =>
          files.map (fun f => (f.name, koneksiNode.mk (joinPath w.parent.path f.name) lastF []))
    ⟨.ok entries, ⟨koneksiNode.mk w.parent.path w.parent.info children, w.listing⟩,
     [.list w.parent.path]⟩

/-- `koneksiNode.setAttr` (internal/fs, lines 541-555): translate a cached
`FileInfo` into POSIX attributes. Size and modification time are copied
(mtime = ctime = atime); the mode is the hardcoded `S_IFDIR | 0755` or
`S_IFREG | 0644`; uid and gid come from the mount configuration. -/
def koneksiNode.setAttr (cfg : MountCfg) (info : FileInfo) : Attr :=
  { size := info.size
    mtime := info.modified
    ctime := info.modified
    atime := info.modified
    mode := if info.isDir then S_IFDIR ||| 0o755 else S_IFREG ||| 0o644
    uid := cfg.uid
    gid := cfg.gid }

/-- `koneksiNode.Getattr` (internal/fs, lines 414-417): `setAttr` on the
cached info; no remote call is made. -/
def koneksiNode.Getattr (cfg : MountCfg) (n : koneksiNode) : Attr × List RemoteCall :=
  (koneksiNode.setAttr cfg n.info, [])

/-- `koneksiNode.Create` (internal/fs, lines 437-474): reject on a
read-only mount before any remote call; otherwise upload an empty object
at the child path (outcome `writeFails`), then insert a fresh size-0 file
node into the children map. On success the remote listing gains the new
entry (object-store semantics of a whole-object write). -/
def koneksiNode.Create (readOnly writeFails : Bool) (now : Nat) (w : World)
    (name : String) : OpOut koneksiNode :=
  if readOnly then ⟨.error .EROFS, w, []⟩
  else
    let childPath := joinPath w.parent.path name
    if writeFails then ⟨.error .IOErr, w, [.write childPath []]⟩
    else
      let info : FileInfo := ⟨name, 0, false, now, childPath⟩
      let child := koneksiNode.mk childPath info []
      ⟨.ok child,
       ⟨koneksiNode.mk w.parent.path w.parent.info (mapInsert w.parent.children name child),
        dropEntries w.listing name ++ [info]⟩,
       [.write childPath []]⟩

/-- `koneksiNode.Mkdir` (internal/fs, lines 479-511): symmetric to
`Create` with `client.Mkdir` (outcome `mkdirFails`) and a directory
node. -/
def koneksiNode.Mkdir (readOnly mkdirFails : Bool) (now : Nat) (w : World)
    (name : String) : OpOut koneksiNode :=
  if readOnly then ⟨.error .EROFS, w, []⟩
  else
    let childPath := joinPath w.parent.path name
    if mkdirFails then ⟨.error .IOErr, w, [.mkdir childPath]⟩
    else
      let info : FileInfo := ⟨name, 0, true, now, childPath⟩
      let child := koneksiNode.mk childPath info []
      ⟨.ok child,
       ⟨koneksiNode.mk w.parent.path w.parent.info (mapInsert w.parent.children name child),
        dropEntries w.listing name ++ [info]⟩,
       [.mkdir childPath]⟩

/-- `koneksiNode.Unlink` (internal/fs, lines 516-532): reject on a
read-only mount before any remote call; issue `Delete(childPath)`
(outcome `deleteFails`); only on success remove the name from the
children map (and, by the remote-store model, from the next listing). -/
def koneksiNode.Unlink (readOnly deleteFails : Bool) (w : World) (name : String) :
    OpOut Unit :=
  if readOnly then ⟨.error .EROFS, w, []⟩
  else
    let childPath := joinPath w.parent.path name
    if deleteFails then ⟨.error .IOErr, w, [.delete childPath]⟩
    else
      ⟨.ok (),
       ⟨koneksiNode.mk w.parent.path w.parent.info (mapDelete w.parent.children name),
        dropEntries w.listing name⟩,
       [.delete childPath]⟩

/-- `koneksiNode.Rmdir` (internal/fs, lines 537-539): delegates to
`Unlink` unchanged. -/
def koneksiNode.Rmdir (readOnly deleteFails : Bool) (w : World) (name : String) :
    OpOut Unit :=
  koneksiNode.Unlink readOnly deleteFails w name

/-- State a file-handle operation acts on: the node path, the remote
object content at that path, and the cached `info.Size` /
`info.Modified` of the handle node. -/
structure FileWorld where
  path : String
  content : List Nat
  size : Nat
  modified : Nat
deriving DecidableEq, Repr

/-- Outcome of a file-handle write: result (bytes written), updated
state, and the remote calls issued. -/
structure FileOut where
  res : Except Errno Nat
  st : FileWorld
  calls : List RemoteCall
deriving Repr

/-- `io.CopyN(dst, src, n)` on a finite stream: copies exactly `n` bytes
and leaves the rest, or stops at `io.EOF` when the stream is shorter. -/
def ioCopyN (src : List Nat) (n : Nat) : Option (List Nat) :=
  if src.length < n then none else some (src.drop n)

/-- `io.ReadFull(src, dest)` with `io.EOF` and `io.ErrUnexpectedEOF`
tolerated by the caller: up to `destLen` bytes of the stream. -/
def ioReadFull (src : List Nat) (destLen : Nat) : List Nat :=
  src.take destLen

/-- `koneksiFileHandle.Read` (internal/fs, lines 575-598): open a fresh
remote read of the whole object (outcome `readFails`); if the offset is
positive, discard `off` bytes - a short stream here yields an empty
successful result; then fill the destination buffer, tolerating a short
read. -/
def koneksiFileHandle.Read (readFails : Bool) (content : List Nat)
    (destLen off : Nat) : Except Errno (List Nat) :=
  if readFails then .error .IOErr
  else if off > 0 then
    match ioCopyN content off with
    | none => .ok []
    | some rest => .ok (ioReadFull rest destLen)
  else .ok (ioReadFull content destLen)

/-- `koneksiFileHandle.Write` (internal/fs, lines 602-652): reject on a
read-only mount before any remote call. For a positive offset, read the
current object (outcome `readFails`) and copy its first `off` bytes into
the scratch buffer (`io.CopyN` tolerating EOF copies `min(off, length)`
bytes); append the data; upload the whole buffer (outcome
`uploadFails`). Only after a successful upload are the cached size
(`off + len(data)`) and modification time updated. -/
def koneksiFileHandle.Write (readOnly readFails uploadFails : Bool) (now : Nat)
    (fw : FileWorld) (data : List Nat) (off : Nat) : FileOut :=
  if readOnly then ⟨.error .EROFS, fw, []⟩
  else if off > 0 then
    if readFails then ⟨.error .IOErr, fw, [.read fw.path]⟩
    else
      let buf := fw.content.take off ++ data
      if uploadFails then ⟨.error .IOErr, fw, [.read fw.path, .write fw.path buf]⟩
      else ⟨.ok data.length, ⟨fw.path, buf, off + data.length, now⟩,
            [.read fw.path, .write fw.path buf]⟩
  else
    let buf := data
    if uploadFails then ⟨.error .IOErr, fw, [.write fw.path buf]⟩
    else ⟨.ok data.length, ⟨fw.path, buf, off + data.length, now⟩,
          [.write fw.path buf]⟩

/-! Helper lemmas about the map and listing operations. -/

theorem mapLookup_mapDelete (m : List (String × koneksiNode)) (k : String) :
    mapLookup (mapDelete m k) k = none := by
  induction m with
  | nil => rfl
  | cons p rest ih =>
    obtain ⟨k', v⟩ := p
    by_cases h : k' = k
    · simp [mapDelete, h, ih]
    · simp [mapDelete, mapLookup, h, ih]

theorem findEntry_dropEntries (l : List FileInfo) (name : String) :
    findEntry (dropEntries l name) name = none := by
  induction l with
  | nil => rfl
  | cons f rest ih =>
    by_cases h : f.name = name
    · simp [dropEntries, h, ih]
    · simp [dropEntries, findEntry, h, ih]

/-- C4: every file-session Read streams the object from the beginning,
discards `off` bytes and returns up to `destLen` bytes of the remainder;
hitting end-of-stream early yields a successful short read. In
particular, on a 10-byte object, Read at offset 5 for 10 bytes succeeds
with exactly the last 5 bytes. -/
theorem c4_read_skips_offset_and_short_reads :
    (∀ (content : List Nat) (destLen off : Nat),
      koneksiFileHandle.Read false content destLen off
        = .ok ((content.drop off).take destLen))
    ∧ koneksiFileHandle.Read false [0, 1, 2, 3, 4, 5, 6, 7, 8, 9] 10 5
        = .ok [5, 6, 7, 8, 9] := by
  constructor
  · intro content destLen off
    by_cases hoff : off > 0
    · by_cases hlen : content.length < off
      · have hdrop : content.drop off = [] := by
          rw [List.drop_eq_nil_iff]; omega
        simp [koneksiFileHandle.Read, ioCopyN, ioReadFull, hoff, hlen, hdrop]
      · simp [koneksiFileHandle.Read, ioCopyN, ioReadFull, hoff, hlen]
    · have h0 : off = 0 := by omega
      subst h0
      simp [koneksiFileHandle.Read, ioReadFull]
  · rfl

/-- C2: writing `N` bytes at offset 0 to a newly created (empty) file and
then reading offsets `[0, N)` through the session returns exactly those
bytes. -/
theorem c2_write_then_read_roundtrip (p : String) (now : Nat) (data : List Nat) :
    (koneksiFileHandle.Write false false false now ⟨p, [], 0, 0⟩ data 0).res
        = .ok data.length
    ∧ koneksiFileHandle.Read false
        (koneksiFileHandle.Write false false false now ⟨p, [], 0, 0⟩ data 0).st.content
        data.length 0
        = .ok data := by
  refine ⟨rfl, ?_⟩
  show koneksiFileHandle.Read false data data.length 0 = .ok data
  simp [koneksiFileHandle.Read, ioReadFull]

/-- C3: a Write whose remote upload fails returns an error and leaves the
cached size, the cached modification time and the remote object content
exactly as before the call; the cached attributes are updated (size to
`off + len(data)`, modification time to now) only on a successful
upload. -/
theorem c3_failed_upload_leaves_state_unchanged (fw : FileWorld) (data : List Nat)
    (off now : Nat) :
    ((koneksiFileHandle.Write false false true now fw data off).res = .error .IOErr
      ∧ (koneksiFileHandle.Write false false true now fw data off).st = fw)
    ∧ ((koneksiFileHandle.Write false false false now fw data off).res
          = .ok data.length
      ∧ (koneksiFileHandle.Write false false false now fw data off).st.size
          = off + data.length
      ∧ (koneksiFileHandle.Write false false false now fw data off).st.modified
          = now) := by
  unfold koneksiFileHandle.Write
  by_cases hoff : off > 0 <;> simp [hoff]

/-- C1 counterexample: writing M = 1 byte at offset K = 1 to an object
previously holding L = 3 bytes yields an object of 2 bytes, not the
`max(L, K+M) = 3` bytes the claim states - the prior tail beyond the
write is dropped by the reconstruction. -/
theorem c1_counterexample :
    (koneksiFileHandle.Write false false false 7 ⟨"/f", [0, 1, 2], 3, 0⟩ [9] 1).st.content
        = [0, 9]
    ∧ (koneksiFileHandle.Write false false false 7 ⟨"/f", [0, 1, 2], 3, 0⟩
        [9] 1).st.content.length ≠ max 3 (1 + 1) := by
  exact ⟨rfl, by decide⟩

/-- C1 (amended): writing `data` at offset `off > 0` to a file previously
holding at least `off` bytes preserves bytes `[0, off)` unchanged, makes
the region `[off, off + len(data))` equal to the written data, and
produces an object of size exactly `off + len(data)` (not
`max(L, off + len(data))`: a longer prior tail is discarded). -/
theorem c1_write_preserves_prefix_exact_size (fw : FileWorld) (data : List Nat)
    (off now : Nat) (hpos : 0 < off) (hlen : off ≤ fw.content.length) :
    (koneksiFileHandle.Write false false false now fw data off).res = .ok data.length
    ∧ (koneksiFileHandle.Write false false false now fw data off).st.content.take off
        = fw.content.take off
    ∧ (koneksiFileHandle.Write false false false now fw data off).st.content.drop off
        = data
    ∧ (koneksiFileHandle.Write false false false now fw data off).st.content.length
        = off + data.length := by
  have htake : (fw.content.take off).length = off := List.length_take_of_le hlen
  have hW : koneksiFileHandle.Write false false false now fw data off
      = ⟨.ok data.length, ⟨fw.path, fw.content.take off ++ data, off + data.length, now⟩,
         [.read fw.path, .write fw.path (fw.content.take off ++ data)]⟩ := by
    unfold koneksiFileHandle.Write
    simp [hpos]
  rw [hW]
  refine ⟨rfl, ?_, ?_, ?_⟩
  · exact List.take_left' htake
  · exact List.drop_left' htake
  · simp [htake]

/-- Witness for the amended C1 at a concrete input: content [1,2,3],
offset 2, data [9]. -/
theorem c1_write_preserves_prefix_exact_size_witness :
    0 < 2
    ∧ 2 ≤ (FileWorld.mk "/f" [1, 2, 3] 3 0).content.length
    ∧ ((koneksiFileHandle.Write false false false 7 ⟨"/f", [1, 2, 3], 3, 0⟩ [9] 2).res
          = .ok ([9] : List Nat).length
      ∧ (koneksiFileHandle.Write false false false 7 ⟨"/f", [1, 2, 3], 3, 0⟩
            [9] 2).st.content.take 2
          = (FileWorld.mk "/f" [1, 2, 3] 3 0).content.take 2
      ∧ (koneksiFileHandle.Write false false false 7 ⟨"/f", [1, 2, 3], 3, 0⟩
            [9] 2).st.content.drop 2
          = [9]
      ∧ (koneksiFileHandle.Write false false false 7 ⟨"/f", [1, 2, 3], 3, 0⟩
            [9] 2).st.content.length
          = 2 + ([9] : List Nat).length) :=
  ⟨by decide, by decide,
   c1_write_preserves_prefix_exact_size ⟨"/f", [1, 2, 3], 3, 0⟩ [9] 2 7
     (by decide) (by decide)⟩

/-- C10: when the prior object holds more than `off + len(data)` bytes,
the uploaded object is exactly the preserved prefix followed by the
written data - length exactly `off + len(data)`, strictly shorter than
before, the prior tail discarded - and the cached size is set to
`off + len(data)`. -/
theorem c10_write_discards_tail (fw : FileWorld) (data : List Nat) (off now : Nat)
    (h : off + data.length < fw.content.length) :
    (koneksiFileHandle.Write false false false now fw data off).res = .ok data.length
    ∧ (koneksiFileHandle.Write false false false now fw data off).st.content
        = fw.content.take off ++ data
    ∧ (koneksiFileHandle.Write false false false now fw data off).st.content.length
        = off + data.length
    ∧ (koneksiFileHandle.Write false false false now fw data off).st.content.length
        < fw.content.length
    ∧ (koneksiFileHandle.Write false false false now fw data off).st.size
        = off + data.length := by
  have hle : off ≤ fw.content.length := by omega
  have htake : (fw.content.take off).length = off := List.length_take_of_le hle
  have hW : koneksiFileHandle.Write false false false now fw data off
      = ⟨.ok data.length, ⟨fw.path, fw.content.take off ++ data, off + data.length, now⟩,
         if 0 < off then [.read fw.path, .write fw.path (fw.content.take off ++ data)]
         else [.write fw.path (fw.content.take off ++ data)]⟩ := by
    unfold koneksiFileHandle.Write
    by_cases hpos : 0 < off
    · simp [hpos]
    · have h0 : off = 0 := by omega
      subst h0
      simp
  rw [hW]
  refine ⟨rfl, rfl, ?_, ?_, rfl⟩
  · simp [htake]
  · simp [htake]; omega

/-- Witness for C10 at a concrete input: content [1,2,3,4], offset 1,
data [9]. -/
theorem c10_write_discards_tail_witness :
    1 + ([9] : List Nat).length < (FileWorld.mk "/f" [1, 2, 3, 4] 4 0).content.length
    ∧ ((koneksiFileHandle.Write false false false 7 ⟨"/f", [1, 2, 3, 4], 4, 0⟩ [9] 1).res
          = .ok ([9] : List Nat).length
      ∧ (koneksiFileHandle.Write false false false 7 ⟨"/f", [1, 2, 3, 4], 4, 0⟩
            [9] 1).st.content
          = (FileWorld.mk "/f" [1, 2, 3, 4] 4 0).content.take 1 ++ [9]
      ∧ (koneksiFileHandle.Write false false false 7 ⟨"/f", [1, 2, 3, 4], 4, 0⟩
            [9] 1).st.content.length
          = 1 + ([9] : List Nat).length
      ∧ (koneksiFileHandle.Write false false false 7 ⟨"/f", [1, 2, 3, 4], 4, 0⟩
            [9] 1).st.content.length
          < (FileWorld.mk "/f" [1, 2, 3, 4] 4 0).content.length
      ∧ (koneksiFileHandle.Write false false false 7 ⟨"/f", [1, 2, 3, 4], 4, 0⟩
            [9] 1).st.size
          = 1 + ([9] : List Nat).length) :=
  ⟨by decide,
   c10_write_discards_tail ⟨"/f", [1, 2, 3, 4], 4, 0⟩ [9] 1 7 (by decide)⟩

/-- A Lookup that misses the cache returns not-found when the remote
listing either fails or omits the name. -/
theorem lookup_miss_absent (lf : Bool) (w : World) (name : String)
    (hmiss : mapLookup w.parent.children name = none)
    (habsent : findEntry w.listing name = none) :
    koneksiNode.Lookup lf w name = ⟨.error .ENOENT, w, [.list w.parent.path]⟩ := by
  unfold koneksiNode.Lookup
  rw [hmiss]
  cases lf
  · rw [habsent]
    rfl
  · rfl

/-- C6: Remove, applied uniformly to files via Unlink and to directories
via Rmdir (which delegates unchanged), issues the remote Delete first; a
failed delete returns an error leaving the parent exactly as before; on
success the name is removed from the children map; and a Lookup of the
same name in the parent afterwards returns not-found whether or not the
fresh listing call succeeds (no concurrent external recreation). -/
theorem c6_remove_semantics (w : World) (name : String) :
    (∀ ro df, koneksiNode.Rmdir ro df w name = koneksiNode.Unlink ro df w name)
    ∧ koneksiNode.Unlink false true w name
        = ⟨.error .IOErr, w, [.delete (joinPath w.parent.path name)]⟩
    ∧ (koneksiNode.Unlink false false w name).res = .ok ()
    ∧ (koneksiNode.Unlink false false w name).calls
        = [.delete (joinPath w.parent.path name)]
    ∧ mapLookup (koneksiNode.Unlink false false w name).w.parent.children name = none
    ∧ (∀ lf, (koneksiNode.Lookup lf (koneksiNode.Unlink false false w name).w name).res
        = .error .ENOENT) := by
  refine ⟨fun ro df => rfl, rfl, rfl, rfl, ?_, ?_⟩
  · exact mapLookup_mapDelete w.parent.children name
  · intro lf
    have hmiss : mapLookup (koneksiNode.Unlink false false w name).w.parent.children name
        = none := mapLookup_mapDelete w.parent.children name
    have habs : findEntry (koneksiNode.Unlink false false w name).w.listing name
        = none := findEntry_dropEntries w.listing name
    rw [lookup_miss_absent lf _ name hmiss habs]

/-- C7 counterexample: with an empty children cache and a failing remote
List call, Lookup surfaces ENOENT - not the generic I/O failure the
claim states. -/
theorem c7_counterexample :
    (koneksiNode.Lookup true
        ⟨koneksiNode.mk "/" ⟨"", 0, true, 0, "/"⟩ [], []⟩ "a").res
      = .error .ENOENT
    ∧ Errno.ENOENT ≠ Errno.IOErr :=
  ⟨rfl, by decide⟩

/-- C7 (amended): a Lookup that misses the cache and whose remote List
call fails surfaces the not-found error (ENOENT), conflating the
transport failure with absence, instead of the generic I/O failure; the
node state is left unchanged. -/
theorem c7_lookup_list_failure_returns_enoent (w : World) (name : String)
    (hmiss : mapLookup w.parent.children name = none) :
    koneksiNode.Lookup true w name = ⟨.error .ENOENT, w, [.list w.parent.path]⟩
    ∧ (koneksiNode.Lookup true w name).res ≠ .error .IOErr := by
  have h : koneksiNode.Lookup true w name
      = ⟨.error .ENOENT, w, [.list w.parent.path]⟩ := by
    unfold koneksiNode.Lookup
    rw [hmiss]
    rfl
  refine ⟨h, ?_⟩
  rw [h]
  intro hc
  exact Errno.noConfusion (Except.error.inj hc)

/-- Witness for the amended C7: an empty root cache with a failing List. -/
theorem c7_lookup_list_failure_returns_enoent_witness :
    mapLookup (World.mk (koneksiNode.mk "/" ⟨"", 0, true, 0, "/"⟩ []) []).parent.children
        "a" = none
    ∧ (koneksiNode.Lookup true
          ⟨koneksiNode.mk "/" ⟨"", 0, true, 0, "/"⟩ [], []⟩ "a"
        = ⟨.error .ENOENT, ⟨koneksiNode.mk "/" ⟨"", 0, true, 0, "/"⟩ [], []⟩, [.list "/"]⟩
      ∧ (koneksiNode.Lookup true
          ⟨koneksiNode.mk "/" ⟨"", 0, true, 0, "/"⟩ [], []⟩ "a").res ≠ .error .IOErr) :=
  ⟨rfl, c7_lookup_list_failure_returns_enoent
    ⟨koneksiNode.mk "/" ⟨"", 0, true, 0, "/"⟩ [], []⟩ "a" rfl⟩

/-- C8: on a read-only mount every mutating operation - Create, Mkdir,
Unlink, Rmdir and the file-handle Write - returns the read-only error,
issues no remote-store call of any kind, and leaves the cached state
(children map included) unchanged. -/
theorem c8_readonly_rejects_mutations (w : World) (name : String) (fw : FileWorld)
    (data : List Nat) (off now : Nat) (fail : Bool) :
    koneksiNode.Create true fail now w name = ⟨.error .EROFS, w, []⟩
    ∧ koneksiNode.Mkdir true fail now w name = ⟨.error .EROFS, w, []⟩
    ∧ koneksiNode.Unlink true fail w name = ⟨.error .EROFS, w, []⟩
    ∧ koneksiNode.Rmdir true fail w name = ⟨.error .EROFS, w, []⟩
    ∧ (∀ rf uf, koneksiFileHandle.Write true rf uf now fw data off
        = ⟨.error .EROFS, fw, []⟩) :=
  ⟨rfl, rfl, rfl, rfl, fun _ _ => rfl⟩

/-- Modelled from the spec wording of section 4.3, for comparison with
the code: permission bits taken from the mount-wide configuration means
the standard umask application - the full permission bits masked by the
complement of the configured umask. -/
def specPermBits (umask : Nat) (isDir : Bool) : Nat :=
  (if isDir then 0o777 else 0o666) &&& (0o777 ^^^ (umask &&& 0o777))

/-- C9 counterexample: with a configured umask of 0 the umask-derived
permission bits of a directory would be 0777, but setAttr produces the
hardcoded 0755 - the permission bits do not come from the configured
umask. -/
theorem c9_counterexample :
    (koneksiNode.setAttr ⟨false, false, 0, 0, 0⟩ ⟨"d", 0, true, 0, "/d"⟩).mode &&& 0o777
        = 0o755
    ∧ specPermBits 0 true = 0o777
    ∧ (0o755 : Nat) ≠ 0o777 :=
  ⟨by decide, by decide, by decide⟩

/-- C9 (amended): Getattr is a pure read of the cached fields issuing no
remote call; mtime, ctime and atime all equal the cached modification
time, size is the cached size, uid and gid come from the mount-wide
configuration, and the permission bits are the fixed constants 0755 for
directories and 0644 for files, independent of the configured umask. -/
theorem c9_getattr_translation (cfg : MountCfg) (n : koneksiNode) :
    (koneksiNode.Getattr cfg n).2 = []
    ∧ (koneksiNode.Getattr cfg n).1 = koneksiNode.setAttr cfg n.info
    ∧ (koneksiNode.setAttr cfg n.info).mtime = n.info.modified
    ∧ (koneksiNode.setAttr cfg n.info).ctime = n.info.modified
    ∧ (koneksiNode.setAttr cfg n.info).atime = n.info.modified
    ∧ (koneksiNode.setAttr cfg n.info).size = n.info.size
    ∧ (koneksiNode.setAttr cfg n.info).uid = cfg.uid
    ∧ (koneksiNode.setAttr cfg n.info).gid = cfg.gid
    ∧ (koneksiNode.setAttr cfg n.info).mode
        = (if n.info.isDir then S_IFDIR ||| 0o755 else S_IFREG ||| 0o644)
    ∧ (∀ u, koneksiNode.setAttr { cfg with umask := u } n.info
        = koneksiNode.setAttr cfg n.info) :=
  ⟨rfl, rfl, rfl, rfl, rfl, rfl, rfl, rfl, rfl, fun _ => rfl⟩

/-- C5, evaluated at the failing input: directory /docs lists a regular
file a.txt followed by a directory sub. Readdir reports a.txt as a
regular file and rebuilds the cache; the immediately following Lookup of
a.txt is answered from the rebuilt cache with no remote call, but the
returned node carries the info of sub - a directory - because under the
Go 1.21 loop-variable capture in Readdir every cached child aliases the
last listed entry. The kind therefore does not match what Readdir
reported. -/
theorem c5_readdir_then_lookup_kind_mismatch :
    (koneksiNode.Readdir false
        ⟨koneksiNode.mk "/docs" ⟨"docs", 0, true, 0, "/docs"⟩ [],
         [⟨"a.txt", 10, false, 0, "/docs/a.txt"⟩, ⟨"sub", 0, true, 0, "/docs/sub"⟩]⟩).res
      = .ok [⟨"a.txt", S_IFREG⟩, ⟨"sub", S_IFDIR⟩]
    ∧ (koneksiNode.Lookup true
        (koneksiNode.Readdir false
          ⟨koneksiNode.mk "/docs" ⟨"docs", 0, true, 0, "/docs"⟩ [],
           [⟨"a.txt", 10, false, 0, "/docs/a.txt"⟩, ⟨"sub", 0, true, 0, "/docs/sub"⟩]⟩).w
        "a.txt").res
      = .ok (koneksiNode.mk "/docs/a.txt" ⟨"sub", 0, true, 0, "/docs/sub"⟩ [])
    ∧ (koneksiNode.Lookup true
        (koneksiNode.Readdir false
          ⟨koneksiNode.mk "/docs" ⟨"docs", 0, true, 0, "/docs"⟩ [],
           [⟨"a.txt", 10, false, 0, "/docs/a.txt"⟩, ⟨"sub", 0, true, 0, "/docs/sub"⟩]⟩).w
        "a.txt").calls = []
    ∧ (FileInfo.mk "sub" 0 true 0 "/docs/sub").isDir = true
    ∧ S_IFREG ≠ S_IFDIR :=
  ⟨rfl, rfl, rfl, rfl, by decide⟩
